import Mathlib

/-!
Verification development for the syropod high-level controller
(walk controller `src/walkController.cpp` and pose controller
`src/pose_controller.cpp`).

Floating-point `double` values are modelled as exact rationals (ℚ), except
where the source takes a Euclidean norm (`Vector2d::norm()`), which is
modelled over the reals (ℝ) with `Real.sqrt`.  C++ integer division and
modulus truncate toward zero, so they are modelled with `Int.tdiv` and
`Int.tmod`.
-/

/-- C++ `int` division: truncation toward zero. -/
def cppDiv (a b : ℤ) : ℤ := Int.tdiv a b

/-- C++ `int` modulus: remainder of truncating division. -/
def cppMod (a b : ℤ) : ℤ := Int.tmod a b

/-- C++ `int(x)` conversion of a `double`: truncation toward zero. -/
def ratTrunc (q : ℚ) : ℤ := if 0 ≤ q then ⌊q⌋ else -⌊-q⌋

/-- Modelled from the spec: the `roundToInt` helper of the math utilities
(not present under `src/`); rounds half away from zero. -/
def roundToInt (q : ℚ) : ℤ := if 0 ≤ q then ⌊q + 1/2⌋ else -⌊(1/2) - q⌋

/-- Modelled from the spec: the `clamped(value, min, max)` helper of the math
utilities (not present under `src/`). -/
def clamped (v lo hi : ℚ) : ℚ := min (max v lo) hi

/-- `PROGRESS_COMPLETE = 100` (spec §6, constants with fixed semantics). -/
def PROGRESS_COMPLETE : ℤ := 100

/-- Modelled from the spec: the hexapod leg count `NUM_LEGS` (six legs,
`legSteppers[3][2]` in the walk controller). -/
def NUM_LEGS : ℤ := 6

/-- A 3d vector of exact scalars, standing for `Eigen::Vector3d`. -/
structure Vec3 where
  x : ℚ
  y : ℚ
  z : ℚ
deriving DecidableEq, Repr

def Vec3.add (a b : Vec3) : Vec3 := ⟨a.x + b.x, a.y + b.y, a.z + b.z⟩

def Vec3.sub (a b : Vec3) : Vec3 := ⟨a.x - b.x, a.y - b.y, a.z - b.z⟩

def Vec3.smul (k : ℚ) (a : Vec3) : Vec3 := ⟨k * a.x, k * a.y, k * a.z⟩

/-- Overwrite the vertical (index 2) component, as in `v[2] = q`. -/
def Vec3.setZ (a : Vec3) (q : ℚ) : Vec3 := ⟨a.x, a.y, q⟩

/-- Five control nodes of one quartic Bezier curve. -/
structure Nodes5 where
  n0 : Vec3
  n1 : Vec3
  n2 : Vec3
  n3 : Vec3
  n4 : Vec3
deriving DecidableEq, Repr

/-- Modelled from the spec: quartic Bezier evaluation (`quarticBezier` of the
math utilities, not present under `src/`); the standard degree-4 Bernstein
form. -/
def quarticBezier (n : Nodes5) (t : ℚ) : Vec3 :=
  Vec3.add (Vec3.smul ((1-t)^4) n.n0)
    (Vec3.add (Vec3.smul (4*(1-t)^3*t) n.n1)
      (Vec3.add (Vec3.smul (6*(1-t)^2*t^2) n.n2)
        (Vec3.add (Vec3.smul (4*(1-t)*t^3) n.n3) (Vec3.smul (t^4) n.n4))))

/-!
## Walk controller: Bezier control-node generation
`WalkController::LegStepper::generateStanceControlNodes` and
`generateSwingControlNodes` (`src/walkController.cpp` lines 6-60).
The member state read by the source methods (`walker->stepDepth`,
`walker->stepClearance`, `walker->maximumBodyHeight`, `stanceDeltaT`,
`swingDeltaT`, the origin and default tip positions and the stance nodes)
is passed explicitly.
-/

/-- `generateStanceControlNodes` (`src/walkController.cpp` lines 43-60).
Horizontal assignments first (full-vector, source lines 48-52), then the
vertical overrides in source order (lines 55-59). -/
def generateStanceControlNodes (stepDepth maximumBodyHeight : ℚ)
    (stanceOriginTipPosition strideVector defaultTipPosition : Vec3) : Nodes5 :=
  let stanceDepth := stepDepth * maximumBodyHeight
  -- horizontal plane (full-vector assignments)
  let n0 := stanceOriginTipPosition
  let n4 := Vec3.sub stanceOriginTipPosition strideVector
  let n1 := Vec3.add n4 (Vec3.smul (3/4) (Vec3.sub n0 n4))
  let n2 := Vec3.add n4 (Vec3.smul (1/2) (Vec3.sub n0 n4))
  let n3 := Vec3.add n4 (Vec3.smul (1/4) (Vec3.sub n0 n4))
  -- vertical plane (overrides, in source order)
  let n0 := Vec3.setZ n0 stanceOriginTipPosition.z
  let n4 := Vec3.setZ n4 defaultTipPosition.z
  let n2 := Vec3.setZ n2 (n0.z - stanceDepth)
  let n1 := Vec3.setZ n1 ((n0.z + n2.z) / 2)
  let n3 := Vec3.setZ n3 ((n4.z + n2.z) / 2)
  ⟨n0, n1, n2, n3, n4⟩

/-- `generateSwingControlNodes` (`src/walkController.cpp` lines 6-38).
Returns the primary and secondary swing node sets.  Horizontal assignments
first (source lines 14-24), then the vertical overrides in source order
(lines 27-37). -/
def generateSwingControlNodes (stepClearance maximumBodyHeight stanceDeltaT swingDeltaT : ℚ)
    (swingOriginTipPosition defaultTipPosition : Vec3)
    (stanceControlNodes : Nodes5) : Nodes5 × Nodes5 :=
  let swingHeight := stepClearance * maximumBodyHeight
  let bezierScaler := stanceDeltaT / swingDeltaT
  -- horizontal plane, primary curve (source order: nodes 0,1,2,4,3)
  let s10 := swingOriginTipPosition
  let s11 := Vec3.add s10 (Vec3.smul bezierScaler (Vec3.sub stanceControlNodes.n4 stanceControlNodes.n3))
  let s12 := Vec3.add s11 (Vec3.sub s11 s10)
  let s14 := defaultTipPosition
  let s13 := Vec3.smul (1/2) (Vec3.add s12 s14)
  -- horizontal plane, secondary curve (source order: nodes 0,1,3,2,4)
  let s20 := s14
  let s21 := Vec3.add s20 (Vec3.sub s20 s13)
  let s23 := Vec3.add stanceControlNodes.n0 (Vec3.smul bezierScaler (Vec3.sub stanceControlNodes.n0 stanceControlNodes.n1))
  let s22 := Vec3.add s23 (Vec3.sub s23 stanceControlNodes.n0)
  let s24 := stanceControlNodes.n0
  -- vertical plane, primary curve (source order: nodes 0,1,4,2,3)
  let s10 := Vec3.setZ s10 swingOriginTipPosition.z
  let s11 := Vec3.setZ s11 (s10.z + bezierScaler * (stanceControlNodes.n4.z - stanceControlNodes.n3.z))
  let s14 := Vec3.setZ s14 (s10.z + swingHeight)
  let s12 := Vec3.setZ s12 (s10.z + 2 * bezierScaler * (stanceControlNodes.n4.z - stanceControlNodes.n3.z))
  let s13 := Vec3.setZ s13 s14.z
  -- vertical plane, secondary curve (source order: nodes 0,1,2,3,4)
  let s20 := Vec3.setZ s20 s14.z
  let s21 := Vec3.setZ s21 s20.z
  let s22 := Vec3.setZ s22 (stanceControlNodes.n0.z + 2 * bezierScaler * (stanceControlNodes.n0.z - stanceControlNodes.n1.z))
  let s23 := Vec3.setZ s23 (stanceControlNodes.n0.z + bezierScaler * (stanceControlNodes.n0.z - stanceControlNodes.n1.z))
  let s24 := Vec3.setZ s24 stanceControlNodes.n0.z
  (⟨s10, s11, s12, s13, s14⟩, ⟨s20, s21, s22, s23, s24⟩)

/-!
## Walk controller: state machines
`WalkController::updateWalk` (`src/walkController.cpp` lines 352-580).
The update is embedded as its successive blocks: velocity normalisation and
slew limiting (lines 352-391), the robot-state transition block (lines
393-423), the per-leg robot state machine (loop body, lines 426-515), the
per-leg leg state machine (loop body, lines 519-544) and the per-leg tip
update (loop body, lines 547-571).
-/

/-- `StepState` of a leg stepper. -/
inductive StepState where
  | STANCE
  | SWING
  | FORCE_STANCE
  | FORCE_STOP
deriving DecidableEq, Repr

/-- Robot walk state (`WalkState` in the source). -/
inductive RobotState where
  | STOPPED
  | STARTING
  | MOVING
  | STOPPING
deriving DecidableEq, Repr

/-- 2d real vector (`Eigen::Vector2d`). -/
def Vec2R := ℝ × ℝ

def Vec2R.add (a b : Vec2R) : Vec2R := (a.1 + b.1, a.2 + b.2)

def Vec2R.sub (a b : Vec2R) : Vec2R := (a.1 - b.1, a.2 - b.2)

def Vec2R.smul (k : ℝ) (a : Vec2R) : Vec2R := (k * a.1, k * a.2)

/-- `Eigen::Vector2d::norm()`. -/
noncomputable def Vec2R.norm (a : Vec2R) : ℝ := Real.sqrt (a.1 ^ 2 + a.2 ^ 2)

/-- The mutable per-leg stepper state read and written by the state-machine
blocks of `updateWalk` (`LegStepper` members `phase`, `phaseOffset`, `state`,
`inCorrectPhase`, `completedFirstStep`, `strideVector`). -/
structure LegStepperW where
  phase : ℤ
  phaseOffset : ℤ
  state : StepState
  inCorrectPhase : Bool
  completedFirstStep : Bool
  strideVector : Vec2R

/-- The walker state read and written by the robot-state transition block. -/
structure WalkS where
  state : RobotState
  legsInCorrectPhase : ℤ
  legsCompletedFirstStep : ℤ
  legs : List LegStepperW

/-- Robot-state transition block of `updateWalk`
(`src/walkController.cpp` lines 393-423).  `normalSpeed` is the norm of the
commanded local velocity computed at line 366; the C++ truthiness tests
`normalSpeed` / `!normalSpeed` are non-zero / zero tests on it. -/
noncomputable def stateTransitions (w : WalkS) (normalSpeed : ℝ) : WalkS :=
  if w.state = RobotState.STOPPED ∧ normalSpeed ≠ 0 then
    { w with
      state := RobotState.STARTING
      legs := w.legs.map fun l => { l with phase := l.phaseOffset - 1 } }
  else if w.state = RobotState.STARTING ∧ w.legsInCorrectPhase = NUM_LEGS ∧
      w.legsCompletedFirstStep = NUM_LEGS then
    { w with
      legsInCorrectPhase := 0
      legsCompletedFirstStep := 0
      state := RobotState.MOVING }
  else if w.state = RobotState.MOVING ∧ normalSpeed = 0 then
    { w with state := RobotState.STOPPING }
  else if w.state = RobotState.STOPPING ∧ w.legsInCorrectPhase = NUM_LEGS then
    { w with
      legsInCorrectPhase := 0
      state := RobotState.STOPPED }
  else
    w

/-- Per-leg body of the robot state machine loop of `updateWalk`
(`src/walkController.cpp` lines 426-515).  Takes the walk state (the same for
every leg of the tick), the gait scalars, the stride-vector inputs of lines
433-435 and the two shared counters; returns the updated leg stepper and
counters (`legsInCorrectPhase`, `legsCompletedFirstStep`).  The source
condition `legStepper.strideVector.norm() == 0` holds exactly when the
squared norm is zero, which is how it is written here.  `isFrontLeft` is the
`l==0 && s==0` test of line 481/493. -/
noncomputable def robotStateMachineLeg (walkState : RobotState)
    (phaseLength swingStart swingEnd : ℤ)
    (onGroundFactor stepFrequency angularVelocity : ℝ)
    (localCentreVelocity localTipPosition : Vec2R) (isFrontLeft : Bool)
    (legsInCorrectPhase legsCompletedFirstStep : ℤ) (leg : LegStepperW) :
    LegStepperW × ℤ × ℤ :=
  let leg := { leg with
    strideVector := Vec2R.smul (onGroundFactor / stepFrequency)
      (Vec2R.add localCentreVelocity
        (Vec2R.smul angularVelocity (localTipPosition.2, -localTipPosition.1))) }
  match walkState with
  | RobotState.STARTING =>
    let leg := { leg with phase := cppMod (leg.phase + 1) phaseLength }
    let r1 :=
      if legsInCorrectPhase = NUM_LEGS then
        if leg.phase = swingEnd ∧ ¬leg.completedFirstStep then
          ({ leg with completedFirstStep := true }, legsCompletedFirstStep + 1)
        else (leg, legsCompletedFirstStep)
      else (leg, legsCompletedFirstStep)
    let leg := r1.1
    let lcfs := r1.2
    let r2 :=
      if ¬leg.inCorrectPhase then
        if leg.phaseOffset > swingStart ∧ leg.phaseOffset < swingEnd then
          if leg.phase = swingEnd then
            ({ leg with inCorrectPhase := true }, legsInCorrectPhase + 1)
          else ({ leg with state := StepState.FORCE_STANCE }, legsInCorrectPhase)
        else ({ leg with inCorrectPhase := true }, legsInCorrectPhase + 1)
      else (leg, legsInCorrectPhase)
    (r2.1, r2.2, lcfs)
  | RobotState.STOPPING =>
    let r1 :=
      if ¬leg.inCorrectPhase then
        let leg := { leg with phase := cppMod (leg.phase + 1) phaseLength }
        if isFrontLeft ∧ leg.state = StepState.FORCE_STOP ∧ leg.phase = 0 then
          ({ leg with inCorrectPhase := true, state := StepState.STANCE },
            legsInCorrectPhase + 1)
        else (leg, legsInCorrectPhase)
      else (leg, legsInCorrectPhase)
    let leg := r1.1
    let licp := r1.2
    let r2 :=
      if leg.strideVector.1 ^ 2 + leg.strideVector.2 ^ 2 = 0 ∧ leg.phase = swingEnd then
        let leg := { leg with state := StepState.FORCE_STOP }
        if ¬isFrontLeft then
          if ¬leg.inCorrectPhase then
            ({ leg with inCorrectPhase := true }, licp + 1)
          else (leg, licp)
        else (leg, licp)
      else (leg, licp)
    (r2.1, r2.2, legsCompletedFirstStep)
  | RobotState.MOVING =>
    ({ leg with
        phase := cppMod (leg.phase + 1) phaseLength
        inCorrectPhase := false },
      legsInCorrectPhase, legsCompletedFirstStep)
  | RobotState.STOPPED =>
    ({ leg with
        inCorrectPhase := false
        completedFirstStep := false
        phase := 0
        state := StepState.STANCE },
      legsInCorrectPhase, legsCompletedFirstStep)

/-- Per-leg body of the leg state machine loop of `updateWalk`
(`src/walkController.cpp` lines 519-544): the per-tick sub-state
selection. -/
def legStateMachine (swingStart swingEnd stanceStart stanceEnd : ℤ)
    (leg : LegStepperW) : LegStepperW :=
  if leg.state = StepState.FORCE_STANCE then
    { leg with state := StepState.STANCE }
  else if leg.state = StepState.FORCE_STOP then
    { leg with state := StepState.FORCE_STOP }
  else if swingStart ≤ leg.phase ∧ leg.phase < swingEnd then
    { leg with state := StepState.SWING }
  else if leg.phase < stanceEnd ∨ stanceStart ≤ leg.phase then
    { leg with state := StepState.STANCE }
  else
    leg

/-- Old-style leg state of the external leg model (`Leg::state`); only
`WALKING` legs take part in the tip-update loop. -/
inductive LegModelState where
  | WALKING
  | MANUAL_TO_WALKING
  | WALKING_TO_MANUAL
  | MANUAL
deriving DecidableEq, Repr

/-- The tip-position state of a leg stepper used by the tip-update loop. -/
structure LegTipS where
  defaultTipPosition : Vec3
  currentTipPosition : Vec3
deriving DecidableEq, Repr

/-- Per-leg body of the tip-update loop of `updateWalk`
(`src/walkController.cpp` lines 547-571).  `upd` stands for
`LegStepper::updatePosition()` (the Bezier step-cycle engine); the returned
flag records whether it was invoked, and the returned optional vector is the
impedance-adjusted position handed to `applyLocalIK` (line 568), `none` when
the leg is not `WALKING`. -/
def tipUpdateLeg (walkState : RobotState) (legState : LegModelState)
    (stanceTipPosition : Vec3) (deltaZ : ℚ) (upd : LegTipS → LegTipS)
    (t : LegTipS) : LegTipS × Option Vec3 × Bool :=
  if legState = LegModelState.WALKING then
    let tipOffset := Vec3.sub t.defaultTipPosition t.currentTipPosition
    let t : LegTipS :=
      { defaultTipPosition := stanceTipPosition
        currentTipPosition := Vec3.sub stanceTipPosition tipOffset }
    let r := if walkState ≠ RobotState.STOPPED then (upd t, true) else (t, false)
    let t := r.1
    let adjustedPos := Vec3.setZ t.currentTipPosition (t.currentTipPosition.z - deltaZ)
    (t, some adjustedPos, r.2)
  else
    (t, none, false)

/-- The effective maximum linear acceleration used by the slew limiter of
`updateWalk` (lines 382-386): the parameter value, or the derived value when
the parameter is `-1`. -/
noncomputable def effectiveMaxAcceleration (phaseLength swingStart swingEnd : ℤ)
    (minFootprintRadius timeDelta maxAccelerationParam : ℝ) : ℝ :=
  if maxAccelerationParam = -1 then
    2 * minFootprintRadius /
      ((((phaseLength : ℝ) - ((swingEnd : ℝ) - (swingStart : ℝ)) * 0.5) * timeDelta) ^ 2)
  else maxAccelerationParam

/-- Velocity normalisation and slew-limiting block of `updateWalk`
(`src/walkController.cpp` lines 352-391): computes the scaled local velocity
and the new angular velocity and local centre velocity.
`onGroundFactor` is the source's `onGroundRatio` of line 354 (renamed).
Returns `(localVelocity, angularVelocity, localCentreVelocity)`. -/
noncomputable def updateVelocity (state : RobotState)
    (phaseLength swingStart swingEnd : ℤ)
    (minFootprintRadius stepFrequency timeDelta maxCurvatureSpeed
      maxAccelerationParam stanceRadius : ℝ)
    (localNormalisedVelocity : Vec2R) (newCurvature : ℝ)
    (localCentreVelocity : Vec2R) (angularVelocity : ℝ) :
    Vec2R × ℝ × Vec2R :=
  let onGroundFactor : ℝ :=
    (((phaseLength : ℝ)) - (((swingEnd : ℝ)) - ((swingStart : ℝ)))) / ((phaseLength : ℝ))
  let localVelocity :=
    if state ≠ RobotState.STOPPING then
      Vec2R.smul (2 * minFootprintRadius * stepFrequency / onGroundFactor)
        localNormalisedVelocity
    else ((0 : ℝ), (0 : ℝ))
  let normalSpeed := Vec2R.norm localVelocity
  let newAngularVelocity := newCurvature * normalSpeed / stanceRadius
  let dif := newAngularVelocity - angularVelocity
  let angularVelocity' :=
    if |dif| > 0 then
      angularVelocity + dif * min 1 (maxCurvatureSpeed * timeDelta / |dif|)
    else angularVelocity
  let centralVelocity := Vec2R.smul (1 - |newCurvature|) localVelocity
  let centralAcceleration := Vec2R.sub centralVelocity localCentreVelocity
  let maxAcceleration :=
    effectiveMaxAcceleration phaseLength swingStart swingEnd minFootprintRadius timeDelta
      maxAccelerationParam
  let localCentreVelocity' :=
    if Vec2R.norm centralAcceleration > 0 then
      Vec2R.add localCentreVelocity
        (Vec2R.smul (min 1 (maxAcceleration * timeDelta / Vec2R.norm centralAcceleration))
          centralAcceleration)
    else localCentreVelocity
  (localVelocity, angularVelocity', localCentreVelocity')

/-!
## Pose controller
`src/pose_controller.cpp`.  Quaternions and poses are carried as plain
records; the quaternion operations implemented by the math utilities absent
from `src/` (Euler conversion, slerp, pose transforms) are taken as explicit
function arguments where a source function calls them.
-/

/-- Quaternion record (`Quat`); only carried, never computed on here. -/
structure Quat4 where
  qw : ℚ
  qx : ℚ
  qy : ℚ
  qz : ℚ
deriving DecidableEq, Repr

/-- A rigid transform (`Pose`): position plus rotation. -/
structure Pose where
  position : Vec3
  rotation : Quat4
deriving DecidableEq, Repr

/-- `Pose::identity()`. -/
def Pose.identity : Pose := ⟨⟨0, 0, 0⟩, ⟨1, 0, 0, 0⟩⟩

/-- `PoseController::updateImpedancePose` (`src/pose_controller.cpp` lines
981-996).  The per-leg `delta_z` values read from the model are passed as a
list whose length is the model's leg count (`loaded_legs` in the source). -/
def updateImpedancePose (deltaZs : List ℚ) (maxTranslationZ : ℚ)
    (impedancePose : Pose) : Pose :=
  let loadedLegs : ℤ := deltaZs.length
  let averageDeltaZ : ℚ := deltaZs.foldl (fun a d => a + d) 0
  let averageDeltaZ := averageDeltaZ / (loadedLegs : ℚ)
  let maxTranslation := maxTranslationZ
  { impedancePose with
    position := Vec3.setZ impedancePose.position
      (clamped |averageDeltaZ| (-maxTranslation) maxTranslation) }

/-- Auto-posing state of the pose controller (`PosingState`). -/
inductive PosingState where
  | POSING
  | STOP_POSING
  | POSING_COMPLETE
deriving DecidableEq, Repr

/-- The start/end-phase zero adjustment of `AutoPoser::updatePose`
(`src/pose_controller.cpp` lines 1094-1102): a phase value of zero is
replaced by the full pose phase length. -/
def zeroToPhaseLength (phaseLength p : ℤ) : ℤ := if p = 0 then phaseLength else p

/-- The window unwrap of `AutoPoser::updatePose` (`src/pose_controller.cpp`
lines 1104-1112): when the start phase exceeds the end phase, the end phase
(and the phase, when it lies before the start) is shifted up by one full
phase length.  Returns the adjusted `(end_phase, phase)`. -/
def unwrapWindow (phaseLength startPhase endPhase phase : ℤ) : ℤ × ℤ :=
  if startPhase > endPhase then
    (endPhase + phaseLength, if phase < startPhase then phase + phaseLength else phase)
  else (endPhase, phase)

/-- Mutable state of one `AutoPoser` object: configured start/end phases and
amplitudes, plus the one-shot cycle flags. -/
structure AutoPoserS where
  startPhaseConfig : ℤ
  endPhaseConfig : ℤ
  xAmplitude : ℚ
  yAmplitude : ℚ
  zAmplitude : ℚ
  rollAmplitude : ℚ
  pitchAmplitude : ℚ
  yawAmplitude : ℚ
  startCheck : Bool
  endCheckFirst : Bool
  endCheckSecond : Bool
  allowPosing : Bool
deriving DecidableEq, Repr

/-- `AutoPoser::updatePose` (`src/pose_controller.cpp` lines 1088-1182).
`eulerToQuat` stands for the `Quat(Vector3d)` Euler-angle constructor of the
math utilities absent from `src/`.  Returns the updated auto-poser state and
the contributed pose. -/
def AutoPoser.updatePose (normaliser phaseLength : ℤ) (poseFrequency : ℚ)
    (state : PosingState) (eulerToQuat : Vec3 → Quat4)
    (ap : AutoPoserS) (phaseIn : ℤ) : AutoPoserS × Pose :=
  let startPhase := zeroToPhaseLength phaseLength (ap.startPhaseConfig * normaliser)
  let endPhase0 := zeroToPhaseLength phaseLength (ap.endPhaseConfig * normaliser)
  let w := unwrapWindow phaseLength startPhase endPhase0 phaseIn
  let endPhase := w.1
  let phase := w.2
  let syncWithStepCycle : Bool := decide (poseFrequency = -1)
  -- coordinated start/stop checks (source lines 1119-1131)
  let startCheck : Bool :=
    (!syncWithStepCycle) ||
      ((!ap.startCheck) && decide (state = PosingState.POSING) && decide (phase = startPhase))
  let endCheckFirst : Bool :=
    ap.endCheckFirst || (decide (state = PosingState.STOP_POSING) && decide (phase = startPhase))
  let endCheckSecond : Bool :=
    ap.endCheckSecond ||
      (decide (state = PosingState.STOP_POSING) && decide (phase = endPhase) && endCheckFirst)
  let flags :=
    if (!ap.allowPosing) && startCheck then
      (true, startCheck, false, false)
    else if ap.allowPosing && syncWithStepCycle && endCheckFirst && endCheckSecond then
      (false, false, endCheckFirst, endCheckSecond)
    else
      (ap.allowPosing, startCheck, endCheckFirst, endCheckSecond)
  let allowPosing := flags.1
  let ap' := { ap with
    startCheck := flags.2.1
    endCheckFirst := flags.2.2.1
    endCheckSecond := flags.2.2.2
    allowPosing := allowPosing }
  -- pose if in correct phase (source lines 1134-1179)
  let returnPose :=
    if startPhase ≤ phase ∧ phase < endPhase ∧ allowPosing = true then
      let iteration := phase - startPhase + 1
      let numIterations := endPhase - startPhase
      let zero : Vec3 := ⟨0, 0, 0⟩
      let posAmp : Vec3 := ⟨ap.xAmplitude, ap.yAmplitude, ap.zAmplitude⟩
      let rotAmp : Vec3 := ⟨ap.rollAmplitude, ap.pitchAmplitude, ap.yawAmplitude⟩
      let firstHalf := iteration ≤ cppDiv numIterations 2
      let positionControlNodes : Nodes5 :=
        if firstHalf then ⟨zero, zero, zero, posAmp, posAmp⟩
        else ⟨posAmp, posAmp, zero, zero, zero⟩
      let rotationControlNodes : Nodes5 :=
        if firstHalf then ⟨zero, zero, zero, rotAmp, rotAmp⟩
        else ⟨rotAmp, rotAmp, zero, zero, zero⟩
      let deltaT : ℚ := 1 / ((numIterations : ℚ) / 2)
      let offset : ℤ := if firstHalf then 0 else ratTrunc ((numIterations : ℚ) / 2)
      let timeInput : ℚ := ((iteration - offset : ℤ) : ℚ) * deltaT
      let position := quarticBezier positionControlNodes timeInput
      let rotation := quarticBezier rotationControlNodes timeInput
      Pose.mk position (eulerToQuat rotation)
    else Pose.identity
  (ap', returnPose)

/-!
## Pose controller: transition sequencer
`PoseController::executeSequence` (`src/pose_controller.cpp` lines 162-468)
and `LegPoser::stepToPosition` (lines 1300-1416).
-/

/-- Sequence direction selector (`SequenceSelection`). -/
inductive SequenceSelection where
  | START_UP
  | SHUT_DOWN
deriving DecidableEq, Repr

/-- Build-time constants and parameters read by the sequencer. -/
structure SeqParams where
  timeDelta : ℚ
  stepFrequency : ℚ
  safetyFactorConst : ℚ
  tipTolerance : ℚ
  horizontalTransitionTime : ℚ
  verticalTransitionTime : ℚ
deriving DecidableEq, Repr

/-- Modelled from the spec: the pose/quaternion operations of the math
utilities absent from `src/` that `stepToPosition` calls
(`Quat::Identity().slerpTo(...)` and `Pose::inverseTransformVector`); they
shape tip positions only, never the sequencer's control flow. -/
structure GeomOracle where
  slerpFromIdentity : Quat4 → ℚ → Quat4
  inverseTransformVector : Pose → Vec3 → Vec3

/-- Per-leg external model data read during one `executeSequence` call:
leg model accessors and the `limit_proximity` value its `applyIK` call
reports this tick. -/
structure LegExtP where
  currentTipPosition : Vec3
  deltaZ : ℚ
  legState : LegModelState
  group : ℤ
  ikLimitProximity : ℚ
  defaultTipPosition : Vec3
  swingHeight : ℚ
deriving DecidableEq, Repr

/-- Mutable `LegPoser` state used by the sequencer. -/
structure LegPoserS where
  firstIteration : Bool
  masterIterationCount : ℤ
  originTipPosition : Vec3
  currentTipPosition : Vec3
  targetTipPosition : Vec3
  legCompletedStep : Bool
  transitionPositions : List Vec3
deriving DecidableEq, Repr

/-- One leg as the sequencer sees it. -/
structure SeqLeg where
  ext : LegExtP
  poser : LegPoserS
deriving DecidableEq, Repr

/-- Modelled from the spec: `LegPoser::hasTransitionPosition` (inline header
accessor absent from `src/`); the cache is an ordered sequence keyed by step
index. -/
def hasTransitionPosition (ps : LegPoserS) (i : ℤ) : Bool :=
  decide (0 ≤ i ∧ i < (ps.transitionPositions.length : ℤ))

/-- Modelled from the spec: `LegPoser::getTransitionPosition` (inline header
accessor absent from `src/`). -/
def getTransitionPosition (ps : LegPoserS) (i : ℤ) : Vec3 :=
  ps.transitionPositions.getD i.toNat ⟨0, 0, 0⟩

/-- Modelled from the spec: `LegPoser::resetStepToPosition` (inline header
function absent from `src/`): "skips to 'complete' progress and resets", i.e.
it restores `first_iteration_` and returns `PROGRESS_COMPLETE`. -/
def resetStepToPosition (ps : LegPoserS) : LegPoserS × ℤ :=
  ({ ps with firstIteration := true }, PROGRESS_COMPLETE)

/-- `LegPoser::stepToPosition` (`src/pose_controller.cpp` lines 1300-1416).
Returns the updated leg-poser state and the progress integer. -/
def stepToPosition (p : SeqParams) (geo : GeomOracle) (ext : LegExtP)
    (ps : LegPoserS) (target : Vec3) (targetPose : Pose)
    (liftHeight timeToStep : ℚ) (applyDeltaZ : Bool) : LegPoserS × ℤ :=
  -- first-iteration setup and early completion (source lines 1305-1320)
  if ps.firstIteration ∧
      |ext.currentTipPosition.x - target.x| < p.tipTolerance ∧
      |ext.currentTipPosition.y - target.y| < p.tipTolerance ∧
      |ext.currentTipPosition.z - target.z| < p.tipTolerance then
    ({ ps with originTipPosition := ext.currentTipPosition, currentTipPosition := target },
      PROGRESS_COMPLETE)
  else
    let ps :=
      if ps.firstIteration then
        { ps with
          originTipPosition := ext.currentTipPosition
          currentTipPosition := ext.currentTipPosition
          masterIterationCount := 0
          firstIteration := false }
      else ps
    -- apply delta z to the target (source lines 1322-1327)
    let manuallyManipulated :=
      ext.legState = LegModelState.MANUAL ∨ ext.legState = LegModelState.WALKING_TO_MANUAL
    let targetTipPosition :=
      if applyDeltaZ ∧ ¬manuallyManipulated then
        Vec3.setZ target (target.z + ext.deltaZ)
      else target
    let mic := ps.masterIterationCount + 1
    let numIterations : ℤ := max 1 (roundToInt (timeToStep / p.timeDelta))
    let deltaT : ℚ := 1 / ((numIterations : ℚ))
    let completionFactor : ℚ := (((mic - 1 : ℤ) : ℚ)) / ((numIterations : ℚ))
    -- the pose applied slowly over the transition (source lines 1336-1340)
    let scaledPose : Pose :=
      ⟨Vec3.smul completionFactor targetPose.position,
        geo.slerpFromIdentity targetPose.rotation completionFactor⟩
    let halfSwingIteration := cppDiv numIterations 2
    -- dual quartic Bezier control nodes (source lines 1345-1365)
    let origin := ps.originTipPosition
    let addLift := fun (v : Vec3) => Vec3.setZ v (v.z + liftHeight)
    let controlNodesPrimary : Nodes5 :=
      ⟨origin, origin, addLift origin,
        addLift (Vec3.add targetTipPosition (Vec3.smul (3/4) (Vec3.sub origin targetTipPosition))),
        addLift (Vec3.add targetTipPosition (Vec3.smul (1/2) (Vec3.sub origin targetTipPosition)))⟩
    let controlNodesSecondary : Nodes5 :=
      ⟨addLift (Vec3.add targetTipPosition (Vec3.smul (1/2) (Vec3.sub origin targetTipPosition))),
        addLift (Vec3.add targetTipPosition (Vec3.smul (1/4) (Vec3.sub origin targetTipPosition))),
        addLift targetTipPosition, targetTipPosition, targetTipPosition⟩
    let swingIterationCount := cppMod (mic + (numIterations - 1)) numIterations + 1
    let newTipPosition :=
      if swingIterationCount ≤ halfSwingIteration then
        quarticBezier controlNodesPrimary (((swingIterationCount : ℤ) : ℚ) * deltaT * 2)
      else
        quarticBezier controlNodesSecondary
          (((swingIterationCount - halfSwingIteration : ℤ) : ℚ) * deltaT * 2)
    let ps := { ps with masterIterationCount := mic }
    let ps :=
      if ext.legState ≠ LegModelState.MANUAL then
        { ps with currentTipPosition := geo.inverseTransformVector scaledPose newTipPosition }
      else ps
    -- completion test and progress (source lines 1406-1415)
    if mic ≥ numIterations then
      ({ ps with firstIteration := true }, PROGRESS_COMPLETE)
    else
      (ps, ratTrunc (completionFactor * ((PROGRESS_COMPLETE : ℤ) : ℚ)))

/-- Sequencer state: the `PoseController` members read and written by
`executeSequence`, with the legs of the model. -/
structure SeqS where
  resetTransitionSequence : Bool
  firstSequenceExecution : Bool
  transitionStep : ℤ
  transitionStepCount : ℤ
  horizontalTransitionComplete : Bool
  verticalTransitionComplete : Bool
  setTarget : Bool
  proximityAlert : Bool
  currentGroup : ℤ
  legsCompletedStep : ℤ
  legs : List SeqLeg
deriving DecidableEq, Repr

/-- The per-leg safety factor of `executeSequence`
(`src/pose_controller.cpp` line 220): `SAFETY_FACTOR/(transition_step_+1)`
during the first sequence execution, `0.0` afterwards. -/
def safetyFactorOf (firstSequenceExecution : Bool) (safetyFactorConst : ℚ)
    (transitionStep : ℤ) : ℚ :=
  if firstSequenceExecution then safetyFactorConst / (((transitionStep : ℤ) : ℚ) + 1)
  else 0

/-- Fixed context of the horizontal-transition leg loop of
`executeSequence`. -/
structure HCtx where
  p : SeqParams
  geo : GeomOracle
  sequence : SequenceSelection
  finalTransition : Bool
  firstSequenceExecution : Bool
  currentGroup : ℤ
  directStep : Bool
  safetyFactor : ℚ
  currentPose : Pose

/-- Accumulated loop state of the horizontal-transition leg loop:
the `progress` local and the `proximity_alert_` and `legs_completed_step_`
members. -/
structure HAcc where
  progress : ℤ
  proximityAlert : Bool
  legsCompletedStep : ℤ
deriving DecidableEq, Repr

/-- Per-leg body of the horizontal target-setting block of `executeSequence`
(`src/pose_controller.cpp` lines 230-255). -/
def horizTargetLeg (nextTransitionStep : ℤ) (leg : SeqLeg) : SeqLeg :=
  let target :=
    if hasTransitionPosition leg.poser nextTransitionStep then
      getTransitionPosition leg.poser nextTransitionStep
    else leg.ext.defaultTipPosition
  let target := Vec3.setZ target leg.ext.currentTipPosition.z
  { leg with poser := { leg.poser with legCompletedStep := false, targetTipPosition := target } }

/-- Per-leg body of the horizontal step loop of `executeSequence`
(`src/pose_controller.cpp` lines 260-323). -/
def horizStepLeg (c : HCtx) (acc : HAcc) (leg : SeqLeg) : HAcc × SeqLeg :=
  if leg.poser.legCompletedStep then (acc, leg)
  else if leg.ext.group = c.currentGroup ∨ c.directStep then
    let target := leg.poser.targetTipPosition
    let applyDeltaZ := c.sequence = SequenceSelection.START_UP ∧ c.finalTransition
    let pose := if applyDeltaZ then c.currentPose else Pose.identity
    let stepHeight : ℚ := if c.directStep then 0 else leg.ext.swingHeight
    let timeToStep :=
      c.p.horizontalTransitionTime / c.p.stepFrequency *
        (if c.firstSequenceExecution then 2 else 1)
    let r := stepToPosition c.p c.geo leg.ext leg.poser target pose stepHeight timeToStep applyDeltaZ
    let exceededWorkspace := leg.ext.ikLimitProximity < c.safetyFactor
    -- leg attempted to move beyond the safe workspace (source lines 282-298)
    let r2 :=
      if c.firstSequenceExecution ∧ exceededWorkspace then
        (({ r.1 with targetTipPosition := r.1.currentTipPosition, firstIteration := true } : LegPoserS),
          PROGRESS_COMPLETE, true)
      else (r.1, r.2, acc.proximityAlert)
    let poser2 := r2.1
    let progress2 := r2.2.1
    let alert := r2.2.2
    if progress2 = PROGRESS_COMPLETE then
      let poser3 := { poser2 with legCompletedStep := true }
      let poser4 :=
        if c.firstSequenceExecution then
          let reachedTarget := ¬exceededWorkspace
          let transitionPosition :=
            if reachedTarget then poser3.targetTipPosition else poser3.currentTipPosition
          { poser3 with transitionPositions := poser3.transitionPositions ++ [transitionPosition] }
        else poser3
      (⟨progress2, alert, acc.legsCompletedStep + 1⟩, { leg with poser := poser4 })
    else
      (⟨progress2, alert, acc.legsCompletedStep⟩, { leg with poser := poser2 })
  else
    ({ acc with legsCompletedStep := acc.legsCompletedStep + 1 },
      { leg with poser := { leg.poser with legCompletedStep := true } })

/-- The horizontal step loop over the model's legs. -/
def horizLoop (c : HCtx) (acc : HAcc) : List SeqLeg → HAcc × List SeqLeg
  | [] => (acc, [])
  | leg :: rest =>
    let r := horizStepLeg c acc leg
    let rr := horizLoop c r.1 rest
    (rr.1, r.2 :: rr.2)

/-- Fixed context of the vertical-transition leg loop of
`executeSequence`. -/
structure VCtx where
  p : SeqParams
  geo : GeomOracle
  sequence : SequenceSelection
  finalTransition : Bool
  firstSequenceExecution : Bool
  safetyFactor : ℚ
  currentPose : Pose

/-- Per-leg body of the vertical target-setting block of `executeSequence`
(`src/pose_controller.cpp` lines 364-387). -/
def vertTargetLeg (nextTransitionStep : ℤ) (leg : SeqLeg) : SeqLeg :=
  let target :=
    if hasTransitionPosition leg.poser nextTransitionStep then
      getTransitionPosition leg.poser nextTransitionStep
    else leg.ext.defaultTipPosition
  let target : Vec3 :=
    ⟨leg.ext.currentTipPosition.x, leg.ext.currentTipPosition.y, target.z⟩
  { leg with poser := { leg.poser with targetTipPosition := target } }

/-- Per-leg body of the vertical step loop of `executeSequence`
(`src/pose_controller.cpp` lines 392-407); the accumulator carries the
`progress` local and the `all_legs_within_workspace` flag. -/
def vertStepLeg (c : VCtx) (acc : ℤ × Bool) (leg : SeqLeg) : (ℤ × Bool) × SeqLeg :=
  let target := leg.poser.targetTipPosition
  let applyDeltaZ := c.sequence = SequenceSelection.START_UP ∧ c.finalTransition
  let pose := if applyDeltaZ then c.currentPose else Pose.identity
  let timeToStep :=
    c.p.verticalTransitionTime / c.p.stepFrequency *
      (if c.firstSequenceExecution then 2 else 1)
  let r := stepToPosition c.p c.geo leg.ext leg.poser target pose 0 timeToStep applyDeltaZ
  let allWithin := acc.2 && !(decide (leg.ext.ikLimitProximity < c.safetyFactor))
  ((r.2, allWithin), { leg with poser := r.1 })

/-- The vertical step loop over the model's legs. -/
def vertLoop (c : VCtx) (acc : ℤ × Bool) : List SeqLeg → (ℤ × Bool) × List SeqLeg
  | [] => (acc, [])
  | leg :: rest =>
    let r := vertStepLeg c acc leg
    let rr := vertLoop c r.1 rest
    (rr.1, r.2 :: rr.2)

/-- Per-leg body of the vertical completion loop of `executeSequence`
(`src/pose_controller.cpp` lines 412-427). -/
def vertFinishLeg (firstSequenceExecution allWithin : Bool) (leg : SeqLeg) : SeqLeg × ℤ :=
  let r := resetStepToPosition leg.poser
  let poser :=
    if firstSequenceExecution then
      let reachedTarget := allWithin
      let transitionPosition :=
        if reachedTarget then r.1.targetTipPosition else r.1.currentTipPosition
      { r.1 with transitionPositions := r.1.transitionPositions ++ [transitionPosition] }
    else r.1
  ({ leg with poser := poser }, r.2)

/-- The vertical completion loop over the model's legs; `progress0` is the
value of the `progress` local before the loop. -/
def vertFinishLoop (firstSequenceExecution allWithin : Bool) (progress0 : ℤ) :
    List SeqLeg → List SeqLeg × ℤ
  | [] => ([], progress0)
  | leg :: rest =>
    let r := vertFinishLeg firstSequenceExecution allWithin leg
    let rr := vertFinishLoop firstSequenceExecution allWithin r.2 rest
    (r.1 :: rr.1, rr.2)

/-- Horizontal completion check of `executeSequence`
(`src/pose_controller.cpp` lines 337-353): once every leg completed its
step, rotate the stepping group or finish the transition step; on the
group-cycle end the transition is complete exactly when no proximity alert
was raised.  Returns the updated state and the `sequence_complete` local. -/
def horizFinish (nextTransitionStep : ℤ) (finalTransition directStep : Bool)
    (s : SeqS) : SeqS × Bool :=
  if s.legsCompletedStep = (s.legs.length : ℤ) then
    let s := { s with setTarget := true, legsCompletedStep := 0 }
    if s.currentGroup = 1 ∨ directStep then
      ({ s with
          currentGroup := 0
          transitionStep := nextTransitionStep
          horizontalTransitionComplete := ¬s.proximityAlert
          proximityAlert := false },
        finalTransition)
    else if s.currentGroup = 0 then ({ s with currentGroup := 1 }, false)
    else (s, false)
  else (s, false)

/-- Tail of `executeSequence` (`src/pose_controller.cpp` lines 440-467):
first-execution step-count bookkeeping, then the completion return
(`PROGRESS_COMPLETE` when the sequence completed this call, otherwise `-1`
during the first sequence execution and the clamped total progress
afterwards). -/
def seqFinish (totalProgressInit : ℤ) (s : SeqS) (normalisedProgress : ℤ)
    (sequenceComplete : Bool) : SeqS × ℤ × Bool :=
  let s :=
    if s.firstSequenceExecution then { s with transitionStepCount := s.transitionStep } else s
  if sequenceComplete then
    ({ s with
        setTarget := true
        verticalTransitionComplete := false
        horizontalTransitionComplete := false
        firstSequenceExecution := false },
      PROGRESS_COMPLETE, true)
  else
    (s,
      (if s.firstSequenceExecution then -1
       else min (totalProgressInit + normalisedProgress) (PROGRESS_COMPLETE - 1)),
      false)

/-- The horizontal-transition block of `executeSequence`
(`src/pose_controller.cpp` lines 223-354): optional target setting, the
per-leg step loop, progress normalisation and the completion check.
Returns the updated state, the normalised progress and the
`sequence_complete` local. -/
def horizPipeline (p : SeqParams) (geo : GeomOracle) (legsBearingLoad : Bool)
    (currentPose : Pose) (sequence : SequenceSelection) (nextTransitionStep : ℤ)
    (finalTransition : Bool) (safetyFactor : ℚ) (s : SeqS) : SeqS × ℤ × Bool :=
  let s :=
    if s.setTarget then
      { s with setTarget := false, legs := s.legs.map (horizTargetLeg nextTransitionStep) }
    else s
  let directStep := ¬legsBearingLoad
  let c : HCtx :=
    ⟨p, geo, sequence, finalTransition, s.firstSequenceExecution, s.currentGroup,
      directStep, safetyFactor, currentPose⟩
  let lr := horizLoop c ⟨0, s.proximityAlert, s.legsCompletedStep⟩ s.legs
  let s := { s with
    legs := lr.2
    proximityAlert := lr.1.proximityAlert
    legsCompletedStep := lr.1.legsCompletedStep }
  let normalisedProgress :=
    if directStep then cppDiv lr.1.progress (max s.transitionStepCount 1)
    else
      cppDiv (cppDiv lr.1.progress 2 + (if s.currentGroup = 0 then 0 else 50))
        (max s.transitionStepCount 1)
  let sC := horizFinish nextTransitionStep finalTransition directStep s
  (sC.1, normalisedProgress, sC.2)

/-- The vertical-transition block of `executeSequence`
(`src/pose_controller.cpp` lines 357-437): optional target setting, the
per-leg step loop, the completion check and progress normalisation.
Returns the updated state, the normalised progress and the
`sequence_complete` local. -/
def vertPipeline (p : SeqParams) (geo : GeomOracle) (currentPose : Pose)
    (sequence : SequenceSelection) (nextTransitionStep : ℤ) (finalTransition : Bool)
    (safetyFactor : ℚ) (s : SeqS) : SeqS × ℤ × Bool :=
  let s :=
    if s.setTarget then
      { s with setTarget := false, legs := s.legs.map (vertTargetLeg nextTransitionStep) }
    else s
  let c : VCtx :=
    ⟨p, geo, sequence, finalTransition, s.firstSequenceExecution, safetyFactor, currentPose⟩
  let lr := vertLoop c (0, true) s.legs
  let progress := lr.1.1
  let allWithin := lr.1.2
  let s := { s with legs := lr.2 }
  let r2 :=
    if ((¬allWithin = true) ∧ s.firstSequenceExecution) ∨ progress = PROGRESS_COMPLETE then
      let fr := vertFinishLoop s.firstSequenceExecution allWithin progress s.legs
      ({ s with
          legs := fr.1
          verticalTransitionComplete := allWithin
          transitionStep := nextTransitionStep
          setTarget := true }, fr.2, finalTransition)
    else (s, progress, false)
  let normalisedProgress := cppDiv r2.2.1 (max r2.1.transitionStepCount 1)
  (r2.1, normalisedProgress, r2.2.2)

/-- `PoseController::executeSequence` (`src/pose_controller.cpp` lines
162-468).  `legsBearingLoad` is `model_->legsBearingLoad()` and
`currentPose` is `model_->getCurrentPose()`.  Returns the updated sequencer
state, the returned progress integer and the `sequence_complete` local.  The
source's two transition `if` blocks are complementary (exactly one of
`execute_horizontal_transition` / `execute_vertical_transition` holds), so
they are written as one `if`/`else`.  The excessive-step check of lines
446-451 only logs and requests a shutdown; it does not alter the returned
value. -/
def executeSequence (p : SeqParams) (geo : GeomOracle) (legsBearingLoad : Bool)
    (currentPose : Pose) (sequence : SequenceSelection) (s : SeqS) : SeqS × ℤ × Bool :=
  -- initialise/reset any saved transition sequence (source lines 167-179)
  let s :=
    if s.resetTransitionSequence ∧ sequence = SequenceSelection.START_UP then
      { s with
        resetTransitionSequence := false
        firstSequenceExecution := true
        transitionStep := 0
        legs := s.legs.map fun leg =>
          { leg with poser := { leg.poser with transitionPositions := [leg.ext.currentTipPosition] } } }
    else s
  -- sequence-type specific setup (source lines 184-217)
  let executeHorizontalTransition :=
    if sequence = SequenceSelection.START_UP then cppMod s.transitionStep 2 = 0
    else ¬cppMod s.transitionStep 2 = 0
  let nextTransitionStep :=
    if sequence = SequenceSelection.START_UP then s.transitionStep + 1 else s.transitionStep - 1
  let transitionStepTarget :=
    if sequence = SequenceSelection.START_UP then s.transitionStepCount else 0
  let totalProgressInit :=
    if sequence = SequenceSelection.START_UP then
      cppDiv (s.transitionStep * 100) (max s.transitionStepCount 1)
    else 100 - cppDiv (s.transitionStep * 100) (max s.transitionStepCount 1)
  let finalTransition : Bool :=
    if s.firstSequenceExecution then
      s.horizontalTransitionComplete || s.verticalTransitionComplete
    else decide (nextTransitionStep = transitionStepTarget)
  let safetyFactor := safetyFactorOf s.firstSequenceExecution p.safetyFactorConst s.transitionStep
  let r :=
    if executeHorizontalTransition then
      horizPipeline p geo legsBearingLoad currentPose sequence nextTransitionStep
        finalTransition safetyFactor s
    else
      vertPipeline p geo currentPose sequence nextTransitionStep finalTransition
        safetyFactor s
  seqFinish totalProgressInit r.1 r.2.1 r.2.2

/-!
## Theorems
-/

/-- C3: for every stance origin `O`, stride vector `s`, default tip position
`D` and stance depth `h_s = step_depth * maximum_body_height`,
`generateStanceControlNodes` produces node 0 equal to `O`, node 4
horizontally equal to `O - s` and vertically equal to `D_z`, nodes 1, 2, 3
horizontally equal to `node4 + (3/4, 1/2, 1/4)*(node0 - node4)` respectively,
and vertically `node2_z = O_z - h_s`, `node1_z = (node0_z + node2_z)/2`,
`node3_z = (node4_z + node2_z)/2`. -/
theorem stanceControlNodes_spec (stepDepth maximumBodyHeight : ℚ) (o s d : Vec3) :
    let N := generateStanceControlNodes stepDepth maximumBodyHeight o s d
    N.n0 = o ∧
    N.n4.x = (Vec3.sub o s).x ∧ N.n4.y = (Vec3.sub o s).y ∧ N.n4.z = d.z ∧
    N.n1.x = (Vec3.add N.n4 (Vec3.smul (3/4) (Vec3.sub N.n0 N.n4))).x ∧
    N.n1.y = (Vec3.add N.n4 (Vec3.smul (3/4) (Vec3.sub N.n0 N.n4))).y ∧
    N.n2.x = (Vec3.add N.n4 (Vec3.smul (1/2) (Vec3.sub N.n0 N.n4))).x ∧
    N.n2.y = (Vec3.add N.n4 (Vec3.smul (1/2) (Vec3.sub N.n0 N.n4))).y ∧
    N.n3.x = (Vec3.add N.n4 (Vec3.smul (1/4) (Vec3.sub N.n0 N.n4))).x ∧
    N.n3.y = (Vec3.add N.n4 (Vec3.smul (1/4) (Vec3.sub N.n0 N.n4))).y ∧
    N.n2.z = o.z - stepDepth * maximumBodyHeight ∧
    N.n1.z = (N.n0.z + N.n2.z) / 2 ∧
    N.n3.z = (N.n4.z + N.n2.z) / 2 := by
  simp only [generateStanceControlNodes, Vec3.add, Vec3.sub, Vec3.smul, Vec3.setZ]
  norm_num

/-- C4 counterexample: with swing origin `(0,0,1)`, default tip `(2,3,0)`,
`step_clearance = 1/2` and `maximum_body_height = 1` (swing height `1/2`),
the generated `swing_1_nodes[4]` has vertical component `3/2`
(= swing origin height + swing height), not the claimed nominal default
height plus swing height (`0 + 1/2`). -/
theorem swingApex_counterexample :
    let z : Vec3 := ⟨0, 0, 0⟩
    let r := generateSwingControlNodes (1/2) 1 1 1 ⟨0, 0, 1⟩ ⟨2, 3, 0⟩ ⟨z, z, z, z, z⟩
    (r.1).n4.z = 3/2 ∧ ¬(r.1).n4.z = (0 : ℚ) + 1/2 := by
  constructor
  · norm_num [generateSwingControlNodes, Vec3.add, Vec3.sub, Vec3.smul, Vec3.setZ]
  · norm_num [generateSwingControlNodes, Vec3.add, Vec3.sub, Vec3.smul, Vec3.setZ]

/-- C4 (amended): at every generation of swing control nodes, the horizontal
components of `swing_1_nodes[4]` equal the default tip position, and its
vertical component equals the swing-origin height plus
`swing_height = step_clearance * maximum_body_height` (so the apex sits at
the nominal default height plus swing height only when the swing origin is
at the default height). -/
theorem swingApex_spec (stepClearance maximumBodyHeight stanceDeltaT swingDeltaT : ℚ)
    (swingOrigin defaultTip : Vec3) (stanceNodes : Nodes5) :
    let r := generateSwingControlNodes stepClearance maximumBodyHeight stanceDeltaT swingDeltaT
      swingOrigin defaultTip stanceNodes
    (r.1).n4.x = defaultTip.x ∧ (r.1).n4.y = defaultTip.y ∧
    (r.1).n4.z = swingOrigin.z + stepClearance * maximumBodyHeight := by
  simp only [generateSwingControlNodes, Vec3.add, Vec3.sub, Vec3.smul, Vec3.setZ]
  norm_num

/-- Folding addition from a seed over a list adds its sum. -/
theorem foldl_add_eq_sum (l : List ℚ) (a : ℚ) : l.foldl (fun x d => x + d) a = a + l.sum := by
  induction l generalizing a with
  | nil => simp
  | cons h t ih => simp [ih, add_assoc]

/-- C8 counterexample: with two legs whose `delta_z` are `-1` and `-1` and
`max_translation_z = 2`, `updateImpedancePose` sets the z translation to `1`
(the clamped absolute value of the average), not to the claimed clamped
average `-1`. -/
theorem impedance_counterexample :
    (updateImpedancePose [-1, -1] 2 Pose.identity).position.z ≠
      clamped (((-1) + (-1)) / 2) (-2) 2 := by
  norm_num [updateImpedancePose, clamped, Vec3.setZ, min_def, max_def]

/-- C8 (amended): for every call with at least one leg,
`updateImpedancePose` sets the z component of the impedance pose translation
to the absolute value of the average of `delta_z` over all legs (the sum
over every leg divided by the total leg count, not by the number of
actually load-bearing legs), clamped to
`[-max_translation_z, max_translation_z]`, and modifies no other component
of the pose. -/
theorem impedance_spec (deltaZs : List ℚ) (maxTranslationZ : ℚ) (pose : Pose)
    (hlegs : 0 < deltaZs.length) :
    let r := updateImpedancePose deltaZs maxTranslationZ pose
    r.position.x = pose.position.x ∧ r.position.y = pose.position.y ∧
    r.rotation = pose.rotation ∧
    r.position.z =
      clamped |deltaZs.sum / (deltaZs.length : ℚ)| (-maxTranslationZ) maxTranslationZ := by
  simp [updateImpedancePose, Vec3.setZ, foldl_add_eq_sum]

/-- Witness for the amended C8 at one leg with `delta_z = 3` and
`max_translation_z = 1`. -/
theorem impedance_spec_witness :
    (0 : ℕ) < [(3 : ℚ)].length ∧
      (updateImpedancePose [3] 1 Pose.identity).position.z =
        clamped |([(3 : ℚ)].sum / (([(3 : ℚ)].length : ℕ) : ℚ))| (-1) 1 :=
  ⟨by decide, (impedance_spec [3] 1 Pose.identity (by decide)).2.2.2⟩

/-- C2 counterexample: a leg whose `step_state` is `ForceStance` is not kept
unchanged by the per-tick sub-state selection: the leg state machine
rewrites it to `Stance` (here with `swing_start = 2`, `swing_end = 5` and
phase 3 inside the swing window). -/
theorem legStateMachine_counterexample :
    let leg : LegStepperW := ⟨3, 0, StepState.FORCE_STANCE, false, false, ((0 : ℝ), (0 : ℝ))⟩
    (legStateMachine 2 5 5 2 leg).state = StepState.STANCE ∧
      StepState.STANCE ≠ StepState.FORCE_STANCE := by
  refine ⟨?_, by decide⟩
  simp [legStateMachine]

/-- C2 (amended): after the per-tick sub-state selection, a leg whose
`step_state` was `ForceStop` keeps it, while a leg whose `step_state` was
`ForceStance` has it replaced by `Stance`; otherwise — given the seam
equalities `stance_end = swing_start` and `stance_start = swing_end`
established by `setGaitParams` — `step_state == Swing` holds iff
`swing_start ≤ phase < swing_end`, and `step_state == Stance` holds
otherwise. -/
theorem legStateMachine_spec (swingStart swingEnd stanceStart stanceEnd : ℤ)
    (leg : LegStepperW)
    (hse : stanceEnd = swingStart) (hss : stanceStart = swingEnd) :
    let r := legStateMachine swingStart swingEnd stanceStart stanceEnd leg
    (leg.state = StepState.FORCE_STANCE → r.state = StepState.STANCE) ∧
    (leg.state = StepState.FORCE_STOP → r.state = StepState.FORCE_STOP) ∧
    (leg.state ≠ StepState.FORCE_STANCE → leg.state ≠ StepState.FORCE_STOP →
      ((r.state = StepState.SWING ↔ swingStart ≤ leg.phase ∧ leg.phase < swingEnd) ∧
        (¬(swingStart ≤ leg.phase ∧ leg.phase < swingEnd) → r.state = StepState.STANCE))) := by
  refine ⟨?_, ?_, ?_⟩
  · intro h
    simp [legStateMachine, h]
  · intro h
    simp [legStateMachine, h]
  · intro h1 h2
    simp only [legStateMachine, if_neg h1, if_neg h2]
    by_cases hw : swingStart ≤ leg.phase ∧ leg.phase < swingEnd
    · simp [hw]
    · rw [if_neg hw, if_pos (by omega)]
      simp [hw]

/-- C1: on every tick, the walk-state transitions are checked in order and
at most one fires (the four guards are pairwise exclusive): Stopped to
Starting when the commanded speed is non-zero, setting every leg's phase to
`phase_offset - 1`; Starting to Moving when both `legs_at_correct_phase` and
`legs_completed_first_step` equal the leg count, resetting both counters;
Moving to Stopping when the commanded speed is zero; Stopping to Stopped
when `legs_at_correct_phase` equals the leg count, resetting that counter;
in every other case the walker state is unchanged. -/
theorem walkStateTransitions_spec (w : WalkS) (normalSpeed : ℝ) :
    let r := stateTransitions w normalSpeed
    let c1 := w.state = RobotState.STOPPED ∧ normalSpeed ≠ 0
    let c2 := w.state = RobotState.STARTING ∧ w.legsInCorrectPhase = NUM_LEGS ∧
      w.legsCompletedFirstStep = NUM_LEGS
    let c3 := w.state = RobotState.MOVING ∧ normalSpeed = 0
    let c4 := w.state = RobotState.STOPPING ∧ w.legsInCorrectPhase = NUM_LEGS
    (¬(c1 ∧ c2) ∧ ¬(c1 ∧ c3) ∧ ¬(c1 ∧ c4) ∧ ¬(c2 ∧ c3) ∧ ¬(c2 ∧ c4) ∧ ¬(c3 ∧ c4)) ∧
    (c1 → r = { w with
      state := RobotState.STARTING
      legs := w.legs.map fun l => { l with phase := l.phaseOffset - 1 } }) ∧
    (c2 → r = { w with
      legsInCorrectPhase := 0
      legsCompletedFirstStep := 0
      state := RobotState.MOVING }) ∧
    (c3 → r = { w with state := RobotState.STOPPING }) ∧
    (c4 → r = { w with legsInCorrectPhase := 0, state := RobotState.STOPPED }) ∧
    (¬c1 → ¬c2 → ¬c3 → ¬c4 → r = w) := by
  refine ⟨⟨?_, ?_, ?_, ?_, ?_, ?_⟩, ?_, ?_, ?_, ?_, ?_⟩
  · rintro ⟨⟨h1, -⟩, ⟨h2, -⟩⟩
    rw [h1] at h2
    simp at h2
  · rintro ⟨⟨h1, -⟩, ⟨h2, -⟩⟩
    rw [h1] at h2
    simp at h2
  · rintro ⟨⟨h1, -⟩, ⟨h2, -⟩⟩
    rw [h1] at h2
    simp at h2
  · rintro ⟨⟨h1, -⟩, ⟨h2, -⟩⟩
    rw [h1] at h2
    simp at h2
  · rintro ⟨⟨h1, -⟩, ⟨h2, -⟩⟩
    rw [h1] at h2
    simp at h2
  · rintro ⟨⟨h1, -⟩, ⟨h2, -⟩⟩
    rw [h1] at h2
    simp at h2
  · intro hc
    simp only [stateTransitions, if_pos hc]
  · intro hc
    have hn1 : ¬(w.state = RobotState.STOPPED ∧ normalSpeed ≠ 0) := by
      rintro ⟨h, -⟩
      rw [hc.1] at h
      simp at h
    simp only [stateTransitions, if_neg hn1, if_pos hc]
  · intro hc
    have hn1 : ¬(w.state = RobotState.STOPPED ∧ normalSpeed ≠ 0) := by
      rintro ⟨h, -⟩
      rw [hc.1] at h
      simp at h
    have hn2 : ¬(w.state = RobotState.STARTING ∧ w.legsInCorrectPhase = NUM_LEGS ∧
        w.legsCompletedFirstStep = NUM_LEGS) := by
      rintro ⟨h, -⟩
      rw [hc.1] at h
      simp at h
    simp only [stateTransitions, if_neg hn1, if_neg hn2, if_pos hc]
  · intro hc
    have hn1 : ¬(w.state = RobotState.STOPPED ∧ normalSpeed ≠ 0) := by
      rintro ⟨h, -⟩
      rw [hc.1] at h
      simp at h
    have hn2 : ¬(w.state = RobotState.STARTING ∧ w.legsInCorrectPhase = NUM_LEGS ∧
        w.legsCompletedFirstStep = NUM_LEGS) := by
      rintro ⟨h, -⟩
      rw [hc.1] at h
      simp at h
    have hn3 : ¬(w.state = RobotState.MOVING ∧ normalSpeed = 0) := by
      rintro ⟨h, -⟩
      rw [hc.1] at h
      simp at h
    simp only [stateTransitions, if_neg hn1, if_neg hn2, if_neg hn3, if_pos hc]
  · intro h1 h2 h3 h4
    simp only [stateTransitions, if_neg h1, if_neg h2, if_neg h3, if_neg h4]

/-- Witness for C1: a concrete Stopped walker with non-zero commanded speed
enters Starting with every leg's phase set to `phase_offset - 1`. -/
theorem walkStateTransitions_spec_witness :
    stateTransitions
        ⟨RobotState.STOPPED, 0, 0, [⟨0, 5, StepState.STANCE, false, false, ((0 : ℝ), (0 : ℝ))⟩]⟩ 1 =
      { (⟨RobotState.STOPPED, 0, 0,
            [⟨0, 5, StepState.STANCE, false, false, ((0 : ℝ), (0 : ℝ))⟩]⟩ : WalkS) with
        state := RobotState.STARTING
        legs := [(⟨0, 5, StepState.STANCE, false, false, ((0 : ℝ), (0 : ℝ))⟩ : LegStepperW)].map
          fun l => { l with phase := l.phaseOffset - 1 } } :=
  (walkStateTransitions_spec
    ⟨RobotState.STOPPED, 0, 0, [⟨0, 5, StepState.STANCE, false, false, ((0 : ℝ), (0 : ℝ))⟩]⟩ 1).2.1
    ⟨rfl, one_ne_zero⟩

/-- C9: whenever the walk state is Stopped, the per-leg update leaves the
leg stepper with phase 0, step state Stance and both `at_correct_phase` and
`completed_first_step` false (given a positive `swing_start`, as established
by `setGaitParams` for any gait with a non-empty stance phase); moreover the
tip-update loop does not invoke the step-cycle `updatePosition` for any leg,
so the leg tip is not advanced along the step cycle that tick (its revised
tip position is independent of the step-cycle engine). -/
theorem stoppedTick_spec
    (phaseLength swingStart swingEnd stanceStart stanceEnd : ℤ)
    (onGroundFactor stepFrequency angularVelocity : ℝ)
    (localCentreVelocity localTipPosition : Vec2R) (isFrontLeft : Bool)
    (licp lcfs : ℤ) (leg : LegStepperW)
    (legState : LegModelState) (stanceTipPosition : Vec3) (deltaZ : ℚ)
    (upd upd2 : LegTipS → LegTipS) (t : LegTipS)
    (hss : 0 < swingStart) :
    let r1 := robotStateMachineLeg RobotState.STOPPED phaseLength swingStart swingEnd
      onGroundFactor stepFrequency angularVelocity localCentreVelocity localTipPosition
      isFrontLeft licp lcfs leg
    let r2 := legStateMachine swingStart swingEnd stanceStart stanceEnd r1.1
    r2.phase = 0 ∧ r2.state = StepState.STANCE ∧
    r2.inCorrectPhase = false ∧ r2.completedFirstStep = false ∧
    (tipUpdateLeg RobotState.STOPPED legState stanceTipPosition deltaZ upd t).2.2 = false ∧
    (tipUpdateLeg RobotState.STOPPED legState stanceTipPosition deltaZ upd t).1 =
      (tipUpdateLeg RobotState.STOPPED legState stanceTipPosition deltaZ upd2 t).1 := by
  have h3 : ¬(swingStart ≤ (0 : ℤ) ∧ (0 : ℤ) < swingEnd) := by omega
  refine ⟨?_, ?_, ?_, ?_, ?_, ?_⟩
  · simp only [robotStateMachineLeg, legStateMachine]
    split_ifs <;> rfl
  · simp only [robotStateMachineLeg, legStateMachine]
    split_ifs <;> rfl
  · simp only [robotStateMachineLeg, legStateMachine]
    split_ifs <;> rfl
  · simp only [robotStateMachineLeg, legStateMachine]
    split_ifs <;> rfl
  · simp only [tipUpdateLeg]
    split_ifs with h1 h2
    · exact absurd rfl h2
    · rfl
    · rfl
  · simp only [tipUpdateLeg]
    split_ifs with h1 h2
    · exact absurd rfl h2
    · rfl
    · rfl

/-- Witness for C9 at a concrete Stopped tick with `swing_start = 25`. -/
theorem stoppedTick_spec_witness :
    (0 : ℤ) < 25 ∧
      (legStateMachine 25 50 50 25
          (robotStateMachineLeg RobotState.STOPPED 50 25 50 1 1 0 ((0 : ℝ), (0 : ℝ))
            ((0 : ℝ), (0 : ℝ)) true 0 0
            ⟨7, 3, StepState.SWING, true, true, ((0 : ℝ), (0 : ℝ))⟩).1).phase = 0 :=
  ⟨by decide,
    (stoppedTick_spec 50 25 50 50 25 1 1 0 ((0 : ℝ), (0 : ℝ)) ((0 : ℝ), (0 : ℝ)) true 0 0
      ⟨7, 3, StepState.SWING, true, true, ((0 : ℝ), (0 : ℝ))⟩ LegModelState.WALKING
      ⟨0, 0, 0⟩ 0 id id ⟨⟨0, 0, 0⟩, ⟨0, 0, 0⟩⟩ (by decide)).1⟩

/-- C10: in `AutoPoser::updatePose`, a configured start or end phase that
normalises to 0 is treated as the full pose phase length; when the start
phase exceeds the end phase the window (and a phase before the start) is
unwrapped by adding the phase length; and whenever the unwrapped phase lies
outside `[start_phase, end_phase)` or posing is not currently allowed, the
returned pose is the identity pose. -/
theorem autoPoserUpdatePose_spec (normaliser phaseLength : ℤ) (poseFrequency : ℚ)
    (state : PosingState) (eulerToQuat : Vec3 → Quat4) (ap : AutoPoserS) (phaseIn : ℤ) :
    let startPhase := zeroToPhaseLength phaseLength (ap.startPhaseConfig * normaliser)
    let endPhase0 := zeroToPhaseLength phaseLength (ap.endPhaseConfig * normaliser)
    let w := unwrapWindow phaseLength startPhase endPhase0 phaseIn
    let r := AutoPoser.updatePose normaliser phaseLength poseFrequency state eulerToQuat ap phaseIn
    (ap.startPhaseConfig * normaliser = 0 → startPhase = phaseLength) ∧
    (ap.endPhaseConfig * normaliser = 0 → endPhase0 = phaseLength) ∧
    (startPhase > endPhase0 →
      w.1 = endPhase0 + phaseLength ∧
      (phaseIn < startPhase → w.2 = phaseIn + phaseLength) ∧
      (¬phaseIn < startPhase → w.2 = phaseIn)) ∧
    (¬(startPhase ≤ w.2 ∧ w.2 < w.1 ∧ (r.1).allowPosing = true) → r.2 = Pose.identity) := by
  refine ⟨?_, ?_, ?_, ?_⟩
  · intro h
    simp [zeroToPhaseLength, h]
  · intro h
    simp [zeroToPhaseLength, h]
  · intro h
    refine ⟨by simp [unwrapWindow, h], ?_, ?_⟩
    · intro hp
      simp [unwrapWindow, h, hp]
    · intro hp
      simp [unwrapWindow, h, hp]
  · intro h
    simp only [AutoPoser.updatePose] at h ⊢
    rw [if_neg h]

/-- Witness for C10: at phase 7 with window `[2, 4)` the auto poser
contributes the identity pose. -/
theorem autoPoserUpdatePose_spec_witness :
    (AutoPoser.updatePose 1 10 0 PosingState.POSING (fun _ => ⟨1, 0, 0, 0⟩)
        ⟨2, 4, 0, 0, 0, 0, 0, 0, false, false, false, false⟩ 7).2 = Pose.identity :=
  (autoPoserUpdatePose_spec 1 10 0 PosingState.POSING (fun _ => ⟨1, 0, 0, 0⟩)
      ⟨2, 4, 0, 0, 0, 0, 0, 0, false, false, false, false⟩ 7).2.2.2
    (fun hc => absurd hc.2.1 (by decide))

/-- The Euclidean norm of a 2d vector is non-negative. -/
theorem Vec2R.norm_nonneg (v : Vec2R) : 0 ≤ Vec2R.norm v := Real.sqrt_nonneg _

/-- The Euclidean norm of a scaled 2d vector. -/
theorem Vec2R.norm_smul (k : ℝ) (v : Vec2R) :
    Vec2R.norm (Vec2R.smul k v) = |k| * Vec2R.norm v := by
  unfold Vec2R.norm Vec2R.smul
  rw [mul_pow, mul_pow, ← mul_add, Real.sqrt_mul (sq_nonneg k), Real.sqrt_sq_eq_abs]

/-- Clipping a positive step `n` by the factor `min 1 (c/n)` keeps it at
most `c`. -/
theorem slewClip_le (c n : ℝ) (hn : 0 < n) : min 1 (c / n) * n ≤ c := by
  rw [min_mul_of_nonneg _ _ hn.le, one_mul, div_mul_cancel₀ _ hn.ne']
  exact min_le_right _ _

/-- The scalar slew-limiting update moves the value by at most `c`. -/
theorem abs_slew_step (av dif c : ℝ) (hc : 0 ≤ c) :
    |(if |dif| > 0 then av + dif * min 1 (c / |dif|) else av) - av| ≤ c := by
  split_ifs with h
  · have hm : 0 ≤ min 1 (c / |dif|) := le_min zero_le_one (div_nonneg hc h.le)
    rw [add_sub_cancel_left, abs_mul, abs_of_nonneg hm, mul_comm]
    exact slewClip_le c |dif| h
  · simpa using hc

/-- The vector slew-limiting update moves the velocity by at most `c` in
norm. -/
theorem norm_slew_step (lcv cA : Vec2R) (c : ℝ) (hc : 0 ≤ c) :
    Vec2R.norm (Vec2R.sub
      (if Vec2R.norm cA > 0 then
        Vec2R.add lcv (Vec2R.smul (min 1 (c / Vec2R.norm cA)) cA)
      else lcv) lcv) ≤ c := by
  split_ifs with h
  · have hm : 0 ≤ min 1 (c / Vec2R.norm cA) := le_min zero_le_one (div_nonneg hc h.le)
    have hsub : Vec2R.sub (Vec2R.add lcv (Vec2R.smul (min 1 (c / Vec2R.norm cA)) cA)) lcv
        = Vec2R.smul (min 1 (c / Vec2R.norm cA)) cA := by
      simp only [Vec2R.add, Vec2R.sub, Vec2R.smul]
      exact congrArg₂ Prod.mk (by ring) (by ring)
    rw [hsub, Vec2R.norm_smul, abs_of_nonneg hm]
    exact slewClip_le c _ h
  · have hz : Vec2R.sub lcv lcv = ((0 : ℝ), (0 : ℝ)) := by
      simp [Vec2R.sub]
    have h0 : Vec2R.norm ((0 : ℝ), (0 : ℝ)) = 0 := by
      simp [Vec2R.norm]
    rw [hz, h0]
    exact hc

/-- C5: on every tick of the velocity block, when the walk state is not
Stopping the commanded velocity input is scaled by
`2 * workspace_radius * step_frequency / on_ground_ratio` (here the
workspace radius is `minFootprintRadius`), and when the state is Stopping
the commanded velocity is treated as zero; the change applied in one tick
to the internal linear body velocity has norm at most
`max_linear_acceleration * time_delta` (with the auto-derived value when the
parameter is `-1`), and the change in angular velocity has magnitude at most
`max_curvature_speed * time_delta`. -/
theorem velocityUpdate_spec (state : RobotState) (phaseLength swingStart swingEnd : ℤ)
    (minFootprintRadius stepFrequency timeDelta maxCurvatureSpeed
      maxAccelerationParam stanceRadius : ℝ)
    (localNormalisedVelocity : Vec2R) (newCurvature : ℝ)
    (localCentreVelocity : Vec2R) (angularVelocity : ℝ)
    (hmcs : 0 ≤ maxCurvatureSpeed * timeDelta)
    (hma : 0 ≤ effectiveMaxAcceleration phaseLength swingStart swingEnd minFootprintRadius
      timeDelta maxAccelerationParam * timeDelta) :
    let r := updateVelocity state phaseLength swingStart swingEnd minFootprintRadius
      stepFrequency timeDelta maxCurvatureSpeed maxAccelerationParam stanceRadius
      localNormalisedVelocity newCurvature localCentreVelocity angularVelocity
    (state ≠ RobotState.STOPPING →
      r.1 = Vec2R.smul (2 * minFootprintRadius * stepFrequency /
        (((phaseLength : ℝ) - ((swingEnd : ℝ) - (swingStart : ℝ))) / (phaseLength : ℝ)))
        localNormalisedVelocity) ∧
    (state = RobotState.STOPPING → r.1 = ((0 : ℝ), (0 : ℝ))) ∧
    |r.2.1 - angularVelocity| ≤ maxCurvatureSpeed * timeDelta ∧
    Vec2R.norm (Vec2R.sub r.2.2 localCentreVelocity) ≤
      effectiveMaxAcceleration phaseLength swingStart swingEnd minFootprintRadius timeDelta
        maxAccelerationParam * timeDelta := by
  refine ⟨?_, ?_, ?_, ?_⟩
  · intro h
    simp only [updateVelocity, if_pos h]
  · intro h
    have h' : ¬state ≠ RobotState.STOPPING := by simp [h]
    simp only [updateVelocity, if_neg h']
  · simp only [updateVelocity]
    exact abs_slew_step _ _ _ hmcs
  · simp only [updateVelocity]
    exact norm_slew_step _ _ _ hma

/-- Witness for C5 at a concrete Stopping tick (all inputs zero but the
auto-derived acceleration): the commanded velocity is zeroed. -/
theorem velocityUpdate_spec_witness :
    (updateVelocity RobotState.STOPPING 1 0 0 1 1 1 1 (-1) 1 ((0 : ℝ), (0 : ℝ)) 0
        ((0 : ℝ), (0 : ℝ)) 0).1 = ((0 : ℝ), (0 : ℝ)) :=
  (velocityUpdate_spec RobotState.STOPPING 1 0 0 1 1 1 1 (-1) 1 ((0 : ℝ), (0 : ℝ)) 0
      ((0 : ℝ), (0 : ℝ)) 0 (by norm_num)
      (by norm_num [effectiveMaxAcceleration])).2.1 rfl

/-- Witness for the amended C2: a Stance leg at phase 3 with swing window
`[2, 5)` is selected into Swing exactly because its phase lies in the
window. -/
theorem legStateMachine_spec_witness :
    (legStateMachine 2 5 5 2
        ⟨3, 0, StepState.STANCE, false, false, ((0 : ℝ), (0 : ℝ))⟩).state = StepState.SWING ↔
      ((2 : ℤ) ≤ 3 ∧ (3 : ℤ) < 5) :=
  ((legStateMachine_spec 2 5 5 2 ⟨3, 0, StepState.STANCE, false, false, ((0 : ℝ), (0 : ℝ))⟩
    rfl rfl).2.2 (by decide) (by decide)).1

/-- Truncation of a non-negative rational is non-negative. -/
theorem ratTrunc_nonneg (q : ℚ) (h : 0 ≤ q) : 0 ≤ ratTrunc q := by
  unfold ratTrunc
  rw [if_pos h]
  exact Int.floor_nonneg.mpr h

/-- The iteration count of `stepToPosition` is positive. -/
theorem numIterations_pos (x : ℚ) : 0 < max 1 (roundToInt x) :=
  lt_of_lt_of_le zero_lt_one (le_max_left _ _)

/-- C++ truncating division of non-negative integers is non-negative. -/
theorem cppDiv_nonneg (a b : ℤ) (ha : 0 ≤ a) (hb : 0 ≤ b) : 0 ≤ cppDiv a b := by
  unfold cppDiv
  rw [Int.tdiv_eq_ediv ha hb]
  exact Int.ediv_nonneg ha hb

/-- C++ truncating division stays at most 100 when the dividend is at most
100 times the (positive) divisor. -/
theorem cppDiv_le_100 (a m : ℤ) (ha : 0 ≤ a) (hm : 0 < m) (h : a ≤ m * 100) :
    cppDiv a m ≤ 100 := by
  unfold cppDiv
  rw [Int.tdiv_eq_ediv ha hm.le]
  calc a / m ≤ m * 100 / m := Int.ediv_le_ediv hm h
    _ = 100 := Int.mul_ediv_cancel_left _ hm.ne'

/-- The progress value returned by `stepToPosition` is non-negative when the
master iteration count is. -/
theorem stepToPosition_progress_nonneg (p : SeqParams) (geo : GeomOracle) (ext : LegExtP)
    (ps : LegPoserS) (target : Vec3) (targetPose : Pose) (liftHeight timeToStep : ℚ)
    (applyDeltaZ : Bool) (hmic : 0 ≤ ps.masterIterationCount) :
    0 ≤ (stepToPosition p geo ext ps target targetPose liftHeight timeToStep applyDeltaZ).2 := by
  unfold stepToPosition
  dsimp only
  split_ifs <;>
    (dsimp only [PROGRESS_COMPLETE]
     first
       | decide
       | (apply ratTrunc_nonneg
          refine mul_nonneg (div_nonneg ?_ ?_) (by norm_num)
          · simp only [Int.cast_nonneg]
            omega
          · exact_mod_cast (numIterations_pos _).le))

/-- One horizontal leg step keeps the `progress` local non-negative. -/
theorem horizStepLeg_progress_nonneg (c : HCtx) (acc : HAcc) (leg : SeqLeg)
    (hp : 0 ≤ acc.progress) (hmic : 0 ≤ leg.poser.masterIterationCount) :
    0 ≤ ((horizStepLeg c acc leg).1).progress := by
  unfold horizStepLeg
  dsimp only [PROGRESS_COMPLETE]
  split_ifs <;> dsimp only <;>
    first
      | exact hp
      | decide
      | omega
      | exact stepToPosition_progress_nonneg _ _ _ _ _ _ _ _ _ hmic

/-- The horizontal leg loop keeps the `progress` local non-negative. -/
theorem horizLoop_progress_nonneg (c : HCtx) (acc : HAcc) (legs : List SeqLeg)
    (hp : 0 ≤ acc.progress)
    (hmic : ∀ leg ∈ legs, 0 ≤ leg.poser.masterIterationCount) :
    0 ≤ ((horizLoop c acc legs).1).progress := by
  induction legs generalizing acc with
  | nil => simpa [horizLoop] using hp
  | cons leg rest ih =>
    simp only [horizLoop]
    apply ih
    · exact horizStepLeg_progress_nonneg c acc leg hp (hmic leg (by simp))
    · intro l hl
      exact hmic l (by simp [hl])

/-- One vertical leg step returns a non-negative `progress` local. -/
theorem vertStepLeg_progress_nonneg (c : VCtx) (acc : ℤ × Bool) (leg : SeqLeg)
    (hmic : 0 ≤ leg.poser.masterIterationCount) :
    0 ≤ (((vertStepLeg c acc leg).1).1) := by
  unfold vertStepLeg
  dsimp only
  exact stepToPosition_progress_nonneg _ _ _ _ _ _ _ _ _ hmic

/-- The vertical leg loop keeps the `progress` local non-negative. -/
theorem vertLoop_progress_nonneg (c : VCtx) (acc : ℤ × Bool) (legs : List SeqLeg)
    (hp : 0 ≤ acc.1)
    (hmic : ∀ leg ∈ legs, 0 ≤ leg.poser.masterIterationCount) :
    0 ≤ (((vertLoop c acc legs).1).1) := by
  induction legs generalizing acc with
  | nil => simpa [vertLoop] using hp
  | cons leg rest ih =>
    simp only [vertLoop]
    apply ih
    · exact vertStepLeg_progress_nonneg c acc leg (hmic leg (by simp))
    · intro l hl
      exact hmic l (by simp [hl])

/-- The vertical completion loop keeps the `progress` local non-negative. -/
theorem vertFinishLoop_progress_nonneg (f a : Bool) (p0 : ℤ) (legs : List SeqLeg)
    (hp : 0 ≤ p0) : 0 ≤ (vertFinishLoop f a p0 legs).2 := by
  induction legs generalizing p0 with
  | nil => simpa [vertFinishLoop] using hp
  | cons leg rest ih =>
    simp only [vertFinishLoop]
    apply ih
    simp [vertFinishLeg, resetStepToPosition, PROGRESS_COMPLETE]

/-- Mapping a leg transformation that does not touch the master iteration
count preserves its non-negativity over a leg list. -/
theorem map_preserves_mic (f : SeqLeg → SeqLeg)
    (hf : ∀ leg, ((f leg).poser).masterIterationCount = (leg.poser).masterIterationCount)
    (legs : List SeqLeg)
    (h : ∀ leg ∈ legs, 0 ≤ (leg.poser).masterIterationCount) :
    ∀ leg ∈ legs.map f, 0 ≤ (leg.poser).masterIterationCount := by
  intro leg hl
  rcases List.mem_map.mp hl with ⟨a, ha, rfl⟩
  rw [hf]
  exact h a ha

/-- The normalised progress produced by the horizontal pipeline is
non-negative. -/
theorem horizPipeline_np_nonneg (p : SeqParams) (geo : GeomOracle) (legsBearingLoad : Bool)
    (currentPose : Pose) (sequence : SequenceSelection) (nextTransitionStep : ℤ)
    (finalTransition : Bool) (safetyFactor : ℚ) (s : SeqS)
    (hmic : ∀ leg ∈ s.legs, 0 ≤ (leg.poser).masterIterationCount) :
    0 ≤ ((horizPipeline p geo legsBearingLoad currentPose sequence nextTransitionStep
      finalTransition safetyFactor s).2).1 := by
  unfold horizPipeline
  dsimp only
  split_ifs <;>
    first
      | exact cppDiv_nonneg _ _
          (horizLoop_progress_nonneg _ _ _ (by norm_num)
            (fun leg hl => map_preserves_mic (horizTargetLeg nextTransitionStep) (fun _ => rfl) s.legs hmic leg hl))
          (le_trans zero_le_one (le_max_right _ _))
      | exact cppDiv_nonneg _ _
          (horizLoop_progress_nonneg _ _ _ (by norm_num) (fun leg hl => hmic leg hl))
          (le_trans zero_le_one (le_max_right _ _))
      | exact cppDiv_nonneg _ _
          (add_nonneg
            (cppDiv_nonneg _ _
              (horizLoop_progress_nonneg _ _ _ (by norm_num)
                (fun leg hl => map_preserves_mic (horizTargetLeg nextTransitionStep) (fun _ => rfl) s.legs hmic leg hl))
              (by norm_num))
            (by norm_num))
          (le_trans zero_le_one (le_max_right _ _))
      | exact cppDiv_nonneg _ _
          (add_nonneg
            (cppDiv_nonneg _ _
              (horizLoop_progress_nonneg _ _ _ (by norm_num) (fun leg hl => hmic leg hl))
              (by norm_num))
            (by norm_num))
          (le_trans zero_le_one (le_max_right _ _))

/-- The normalised progress produced by the vertical pipeline is
non-negative. -/
theorem vertPipeline_np_nonneg (p : SeqParams) (geo : GeomOracle) (currentPose : Pose)
    (sequence : SequenceSelection) (nextTransitionStep : ℤ) (finalTransition : Bool)
    (safetyFactor : ℚ) (s : SeqS)
    (hmic : ∀ leg ∈ s.legs, 0 ≤ (leg.poser).masterIterationCount) :
    0 ≤ ((vertPipeline p geo currentPose sequence nextTransitionStep finalTransition
      safetyFactor s).2).1 := by
  unfold vertPipeline
  dsimp only
  split_ifs <;>
    first
      | exact cppDiv_nonneg _ _
          (vertFinishLoop_progress_nonneg _ _ _ _
            (vertLoop_progress_nonneg _ _ _ (by norm_num)
              (fun leg hl => map_preserves_mic (vertTargetLeg nextTransitionStep) (fun _ => rfl) s.legs hmic leg hl)))
          (le_trans zero_le_one (le_max_right _ _))
      | exact cppDiv_nonneg _ _
          (vertFinishLoop_progress_nonneg _ _ _ _
            (vertLoop_progress_nonneg _ _ _ (by norm_num) (fun leg hl => hmic leg hl)))
          (le_trans zero_le_one (le_max_right _ _))
      | exact cppDiv_nonneg _ _
          (vertLoop_progress_nonneg _ _ _ (by norm_num)
            (fun leg hl => map_preserves_mic (vertTargetLeg nextTransitionStep) (fun _ => rfl) s.legs hmic leg hl))
          (le_trans zero_le_one (le_max_right _ _))
      | exact cppDiv_nonneg _ _
          (vertLoop_progress_nonneg _ _ _ (by norm_num) (fun leg hl => hmic leg hl))
          (le_trans zero_le_one (le_max_right _ _))

/-- The initial total-progress estimate of `executeSequence` is non-negative
while the transition step lies between 0 and `max(count, 1)`. -/
theorem totalProgressInit_nonneg (sequence : SequenceSelection) (ts cnt : ℤ)
    (hts : 0 ≤ ts) (hle : ts ≤ max cnt 1) :
    0 ≤ (if sequence = SequenceSelection.START_UP then cppDiv (ts * 100) (max cnt 1)
         else 100 - cppDiv (ts * 100) (max cnt 1)) := by
  have hm : (0 : ℤ) < max cnt 1 := lt_of_lt_of_le zero_lt_one (le_max_right _ _)
  split_ifs
  · exact cppDiv_nonneg _ _ (by positivity) hm.le
  · have h100 : cppDiv (ts * 100) (max cnt 1) ≤ 100 :=
      cppDiv_le_100 _ _ (by positivity) hm
        (mul_le_mul_of_nonneg_right hle (by norm_num))
    omega

/-- The tail of `executeSequence` returns `PROGRESS_COMPLETE` exactly when
the sequence completed, `-1` on an incomplete first execution, a value in
`[0, 99]` on an incomplete later execution, and always a value in
`[-1, 100]`. -/
theorem seqFinish_spec (tp : ℤ) (s : SeqS) (np : ℤ) (sc : Bool)
    (htp : 0 ≤ tp) (hnp : 0 ≤ np) :
    let r := seqFinish tp s np sc
    (r.2.1 = PROGRESS_COMPLETE ↔ r.2.2 = true) ∧
    (r.2.2 = false →
      (r.1.firstSequenceExecution = true → r.2.1 = -1) ∧
      (r.1.firstSequenceExecution = false → 0 ≤ r.2.1 ∧ r.2.1 ≤ 99)) ∧
    (-1 ≤ r.2.1 ∧ r.2.1 ≤ PROGRESS_COMPLETE) := by
  unfold seqFinish
  dsimp only [PROGRESS_COMPLETE]
  cases sc with
  | true =>
    by_cases hA : s.firstSequenceExecution = true
    · simp [hA]
    · simp [hA]
  | false =>
    by_cases hA : s.firstSequenceExecution = true
    · simp [hA]
    · rw [Bool.not_eq_true] at hA
      simp only [hA, Bool.false_eq_true, if_false, if_neg, reduceIte]
      refine ⟨by constructor <;> intro h <;> first | omega | simp_all, ?_, by omega⟩
      intro _
      exact ⟨fun h => by simp [hA] at h, fun _ => by omega⟩

/-- C6: every call of `executeSequence` returns `PROGRESS_COMPLETE` (100)
exactly when the transition sequence completes on that call; when it has not
completed it returns `-1` if this is the first sequence execution and
otherwise an integer in `[0, 99]` (the total progress is clamped strictly
below 100); hence every return value lies in `[-1, 100]`.  The hypotheses
are the sequencer's own reachable-state invariants: a transition step
between 0 and `max(count, 1)` and non-negative per-leg iteration
counters. -/
theorem executeSequence_progress_spec (p : SeqParams) (geo : GeomOracle)
    (legsBearingLoad : Bool) (currentPose : Pose) (sequence : SequenceSelection) (s : SeqS)
    (hts : 0 ≤ s.transitionStep)
    (htc : s.transitionStep ≤ max s.transitionStepCount 1)
    (hmic : ∀ leg ∈ s.legs, 0 ≤ (leg.poser).masterIterationCount) :
    let r := executeSequence p geo legsBearingLoad currentPose sequence s
    (r.2.1 = PROGRESS_COMPLETE ↔ r.2.2 = true) ∧
    (r.2.2 = false →
      (r.1.firstSequenceExecution = true → r.2.1 = -1) ∧
      (r.1.firstSequenceExecution = false → 0 ≤ r.2.1 ∧ r.2.1 ≤ 99)) ∧
    (-1 ≤ r.2.1 ∧ r.2.1 ≤ PROGRESS_COMPLETE) := by
  unfold executeSequence
  dsimp only
  set s1 := (if s.resetTransitionSequence = true ∧
      sequence = SequenceSelection.START_UP then
    { s with
      resetTransitionSequence := false
      firstSequenceExecution := true
      transitionStep := 0
      legs := s.legs.map fun leg =>
        { leg with poser :=
          { leg.poser with transitionPositions := [leg.ext.currentTipPosition] } } }
    else s) with hs1
  have hmic1 : ∀ leg ∈ s1.legs, 0 ≤ (leg.poser).masterIterationCount := by
    rw [hs1]
    split_ifs
    · exact fun leg hl =>
        map_preserves_mic
          (fun leg => { leg with poser :=
            { leg.poser with transitionPositions := [leg.ext.currentTipPosition] } })
          (fun _ => rfl) s.legs hmic leg hl
    · exact hmic
  have hts1 : 0 ≤ s1.transitionStep := by
    rw [hs1]
    split_ifs <;> simp [hts]
  have htc1 : s1.transitionStep ≤ max s1.transitionStepCount 1 := by
    rw [hs1]
    split_ifs
    · exact le_trans zero_le_one (le_max_right _ _)
    · exact htc
  refine seqFinish_spec _ _ _ _ ?_ ?_
  · exact totalProgressInit_nonneg sequence _ _ hts1 htc1
  · split_ifs <;>
      first
        | exact horizPipeline_np_nonneg _ _ _ _ _ _ _ _ _ hmic1
        | exact vertPipeline_np_nonneg _ _ _ _ _ _ _ _ hmic1

/-- Witness for C6 at a trivial sequencer state (no legs, step 0). -/
theorem executeSequence_progress_spec_witness :
    -1 ≤ (executeSequence ⟨1, 1, 1, 1, 1, 1⟩ ⟨fun q _ => q, fun _ v => v⟩ true Pose.identity
        SequenceSelection.START_UP
        ⟨false, false, 0, 0, false, false, false, false, 0, 0, []⟩).2.1 ∧
      (executeSequence ⟨1, 1, 1, 1, 1, 1⟩ ⟨fun q _ => q, fun _ v => v⟩ true Pose.identity
        SequenceSelection.START_UP
        ⟨false, false, 0, 0, false, false, false, false, 0, 0, []⟩).2.1 ≤ PROGRESS_COMPLETE :=
  (executeSequence_progress_spec ⟨1, 1, 1, 1, 1, 1⟩ ⟨fun q _ => q, fun _ v => v⟩ true
    Pose.identity SequenceSelection.START_UP
    ⟨false, false, 0, 0, false, false, false, false, 0, 0, []⟩
    (by decide) (by decide) (by simp)).2.2

/-- C7: during the first sequence execution of transition step `k`, the
safety factor for the per-leg proximity test equals `SAFETY_FACTOR/(k+1)`
(and 0 on later executions); when a stepping leg's IK-reported
`limit_proximity` falls below the safety factor during a horizontal
transition of the first execution, that leg's target tip position is set to
its current tip position, its step is reset to complete (so the remaining
legs continue while this one is counted done), and `proximity_alert` is
raised; on the group-cycle end the raised alert marks the horizontal
transition incomplete. -/
theorem executeSequence_proximity_spec (c : HCtx) (acc : HAcc) (leg : SeqLeg)
    (nextTransitionStep : ℤ) (finalTransition directStep : Bool) (sfin : SeqS)
    (sf : ℚ) (k : ℤ)
    (hnc : leg.poser.legCompletedStep = false)
    (hgrp : leg.ext.group = c.currentGroup ∨ c.directStep = true)
    (hfirst : c.firstSequenceExecution = true)
    (hex : leg.ext.ikLimitProximity < c.safetyFactor)
    (hall : sfin.legsCompletedStep = (sfin.legs.length : ℤ))
    (hgrp2 : sfin.currentGroup = 1 ∨ directStep = true)
    (halert : sfin.proximityAlert = true) :
    (safetyFactorOf true sf k = sf / ((k : ℚ) + 1) ∧ safetyFactorOf false sf k = 0) ∧
    (let r := horizStepLeg c acc leg
     (r.2.poser).targetTipPosition = (r.2.poser).currentTipPosition ∧
     (r.2.poser).legCompletedStep = true ∧
     (r.1).proximityAlert = true ∧
     (r.1).legsCompletedStep = acc.legsCompletedStep + 1 ∧
     (r.1).progress = PROGRESS_COMPLETE) ∧
    ((horizFinish nextTransitionStep finalTransition directStep sfin).1).horizontalTransitionComplete
      = false := by
  refine And.intro (And.intro rfl rfl) (And.intro ?_ ?_)
  · unfold horizStepLeg
    rw [if_neg (by simp [hnc])]
    rw [if_pos hgrp]
    dsimp only
    rw [if_pos (by simp [hfirst, hex])]
    simp [hfirst, hex]
  · unfold horizFinish
    rw [if_pos hall]
    dsimp only
    rw [if_pos hgrp2]
    dsimp only
    simp [halert]

/-- Witness for C7: a raised proximity alert marks the horizontal
transition incomplete at the group-cycle end. -/
theorem executeSequence_proximity_spec_witness :
    ((horizFinish 1 false true
        ⟨false, false, 0, 0, false, false, false, true, 1, 0, []⟩).1).horizontalTransitionComplete
      = false :=
  (executeSequence_proximity_spec
    ⟨⟨1, 1, 1, 1, 1, 1⟩, ⟨fun q _ => q, fun _ v => v⟩, SequenceSelection.START_UP, false,
      true, 0, true, 1, Pose.identity⟩
    ⟨0, false, 0⟩
    ⟨⟨⟨0, 0, 0⟩, 0, LegModelState.WALKING, 0, 0, ⟨0, 0, 0⟩, 0⟩,
      ⟨true, 0, ⟨0, 0, 0⟩, ⟨0, 0, 0⟩, ⟨0, 0, 0⟩, false, []⟩⟩
    1 false true
    ⟨false, false, 0, 0, false, false, false, true, 1, 0, []⟩
    1 0 rfl (Or.inr rfl) rfl (by norm_num) rfl (Or.inl rfl) rfl).2.2
